import Mathlib

/-!
Shallow embedding of the capi-vip-allocator reconciliation engine
(pkg/controller/cluster_reconciler.go and pkg/runtime/extension.go).

Kubernetes objects are modelled as plain records, the backing store as
lists of those records, and the client operations (get/list/create/update/
patch) as total functions over the store.  Transport-level failures are
modelled where a claim depends on them, via an injected response type
(GetResult).  Concurrency is modelled by letting the store observed at
get time differ from the store observed at create time.
-/

/-- Constants mirrored from the Go source (cluster_reconciler.go / extension.go). -/
def controlPlaneRole : String := "control-plane"

/-- Role tag for the ingress VIP. -/
def ingressRole : String := "ingress"

/-- Label key naming the cluster class selector on a pool. -/
def clusterClassLabel : String := "vip.capi.gorizond.io/cluster-class"

/-- Label key naming the role selector on a pool. -/
def roleLabel : String := "vip.capi.gorizond.io/role"

/-- Annotation key disabling ingress VIP allocation when set to "false". -/
def ingressEnabledKey : String := "vip.capi.gorizond.io/ingress-enabled"

/-- Annotation (and label) key carrying the allocated ingress VIP. -/
def ingressVipKey : String := "vip.capi.gorizond.io/ingress-vip"

/-- API group of the IPAM objects. -/
def ipamGroup : String := "ipam.cluster.x-k8s.io"

/-- Kind of the pool objects. -/
def globalPoolKind : String := "GlobalInClusterIPPool"

/-- Fixed requeue delay of the background reconciler, in seconds
(defaultRequeueDelay = 10 * time.Second). -/
def defaultRequeueDelaySeconds : Nat := 10

/-- Polling interval of the hook path, in milliseconds
(ipAllocationInterval = 500 * time.Millisecond). -/
def ipAllocationIntervalMs : Nat := 500

/-- Hard polling timeout of the hook path, in milliseconds
(ipAllocationTimeout = 25 * time.Second). -/
def ipAllocationTimeoutMs : Nat := 25000

/-- Modelled from the spec: the caller's external deadline for the hook
path, 30 seconds, stated in the source comment on ipAllocationTimeout
("Must be less than hook timeout (30s)"); the deadline itself is
enforced by the external hook transport, not by code under src/. -/
def hookDeadlineMs : Nat := 30000

/-- Number of poll iterations the hook path performs before timing out. -/
def pollIterations : Nat := ipAllocationTimeoutMs / ipAllocationIntervalMs

/-- Escape characters for Go %q string formatting (quote and backslash;
IP addresses and class names contain no characters needing more). -/
def goEscapeChars : List Char → List Char
  | [] => []
  | c :: rest =>
    if c == '"' then '\\' :: '"' :: goEscapeChars rest
    else if c == '\\' then '\\' :: '\\' :: goEscapeChars rest
    else c :: goEscapeChars rest

/-- Models fmt.Sprintf with the %q verb on a string value. -/
def goQuote (s : String) : String :=
  String.mk ('"' :: (goEscapeChars s.data ++ ['"']))

/-- ASCII whitespace recognizer (strings.TrimSpace trims Unicode space;
the values handled here are ASCII). -/
def isSpaceChar (c : Char) : Bool :=
  c == ' ' || c == '\t' || c == '\n' || c == '\r'

/-- Trim whitespace from both ends of a string (strings.TrimSpace). -/
def strTrim (s : String) : String :=
  String.mk (((s.data.dropWhile isSpaceChar).reverse.dropWhile isSpaceChar).reverse)

/-- Split a character list at commas (strings.Split with separator ","). -/
def splitCommaAux : List Char → List Char → List (List Char)
  | [], acc => [acc.reverse]
  | c :: rest, acc =>
    if c == ',' then acc.reverse :: splitCommaAux rest []
    else splitCommaAux rest (c :: acc)

/-- Split a string on commas (strings.Split(s, ",")). -/
def splitOnComma (s : String) : List String :=
  (splitCommaAux s.data []).map String.mk

/-- String-keyed map modelled as an association list (insertion order is
observable in Go maps only through range order, which the code never
relies on for these maps). -/
abbrev StrMap := List (String × String)

/-- Lookup in an association-list map. -/
def lookupMap (m : StrMap) (k : String) : Option String :=
  (m.find? (fun kv => kv.fst == k)).map (fun kv => kv.snd)

/-- Set a key in an association-list map: replace in place when present,
append otherwise (models m[k] = v on a Go map). -/
def setMap (m : StrMap) (k v : String) : StrMap :=
  if (m.find? (fun kv => kv.fst == k)).isSome then
    m.map (fun kv => if kv.fst == k then (k, v) else kv)
  else
    m ++ [(k, v)]

/-- A topology variable of a Cluster (name plus raw JSON value). -/
structure ClusterVariable where
  name : String
  value : String
deriving DecidableEq, Repr

/-- The topology section of a Cluster spec: class reference and variables. -/
structure Topology where
  className : String
  vars : List ClusterVariable
deriving DecidableEq, Repr

/-- The controlPlaneEndpoint of a Cluster: host and port. -/
structure APIEndpoint where
  host : String
  port : Int
deriving DecidableEq, Repr

/-- A Cluster resource (the target of reconciliation).  The namespace
field is named ns because namespace is a Lean keyword. -/
structure Cluster where
  name : String
  ns : String
  annotations : StrMap
  labels : StrMap
  topology : Option Topology
  endpoint : APIEndpoint
deriving DecidableEq, Repr

/-- A GlobalInClusterIPPool: only its name and labels matter to the core. -/
structure Pool where
  name : String
  labels : StrMap
deriving DecidableEq, Repr

/-- An owner reference placed on a claim. -/
structure OwnerReference where
  kind : String
  name : String
deriving DecidableEq, Repr

/-- The poolRef field of a claim spec. -/
structure PoolRef where
  apiGroup : String
  kind : String
  name : String
deriving DecidableEq, Repr

/-- An IPAddressClaim.  addressRefName models status.addressRef.name:
none when the field is absent, some "" when present but empty. -/
structure Claim where
  name : String
  ns : String
  labels : StrMap
  ownerReferences : List OwnerReference
  poolRef : Option PoolRef
  addressRefName : Option String
deriving DecidableEq, Repr

/-- An IPAddress record; address models spec.address ("" = absent/empty). -/
structure IPAddress where
  name : String
  ns : String
  address : String
deriving DecidableEq, Repr

/-- A ClusterClass, reduced to the names of its declared variables. -/
structure ClusterClass where
  name : String
  variableNames : List String
deriving DecidableEq, Repr

/-- The backing store: all objects the reconciler reads or writes.
classesGlobal holds ClusterClass objects found by the cluster-scoped
lookup, classesNs those found by the namespace-scoped fallback. -/
structure Store where
  clusters : List Cluster
  pools : List Pool
  claims : List Claim
  addresses : List IPAddress
  classesGlobal : List ClusterClass
  classesNs : List (String × ClusterClass)
deriving DecidableEq, Repr

/-- Result of a client Get, with injectable transport failure. -/
inductive GetResult (α : Type) where
  | found (x : α)
  | notFound
  | failed (msg : String)
deriving DecidableEq, Repr

/-- Get a cluster by (namespace, name). -/
def storeGetClusterOpt (s : Store) (ns n : String) : Option Cluster :=
  s.clusters.find? (fun c => c.ns == ns && c.name == n)

/-- Get a claim by (namespace, name). -/
def storeGetClaimOpt (s : Store) (ns n : String) : Option Claim :=
  s.claims.find? (fun c => c.ns == ns && c.name == n)

/-- Get an IPAddress by name inside a namespace, as a GetResult (the
sequential store injects no transport failures). -/
def storeGetAddr (s : Store) (ns n : String) : GetResult IPAddress :=
  match s.addresses.find? (fun a => a.ns == ns && a.name == n) with
  | some a => GetResult.found a
  | none => GetResult.notFound

/-- Append a newly created claim to the store. -/
def storeAddClaim (s : Store) (c : Claim) : Store :=
  { s with claims := s.claims ++ [c] }

/-- Replace the claim with the same (namespace, name) (models Update). -/
def storeUpdateClaim (s : Store) (c : Claim) : Store :=
  { s with claims := s.claims.map (fun x => if x.ns == c.ns && x.name == c.name then c else x) }

/-- Replace the cluster with the same (namespace, name) (models Patch). -/
def storeUpdateCluster (s : Store) (c : Cluster) : Store :=
  { s with clusters := s.clusters.map (fun x => if x.ns == c.ns && x.name == c.name then c else x) }

/-- Number of claims stored under a given (namespace, name). -/
def claimCount (s : Store) (ns n : String) : Nat :=
  (s.claims.filter (fun c => c.ns == ns && c.name == n)).length

/-- Class name of a cluster (callers dereference Spec.Topology.Class only
when topology is present; "" stands for the absent case). -/
def clusterClassOf (c : Cluster) : String :=
  match c.topology with
  | some t => t.className
  | none => ""

/-- Direct translation of labelContainsValue (cluster_reconciler.go):
trim the target, accept an exact trimmed match, else split the label
value on commas and compare each trimmed element. -/
def labelContainsValue (labelValue targetValue : String) : Bool :=
  let target := strTrim targetValue
  if strTrim labelValue == target then true
  else (splitOnComma labelValue).any (fun v => strTrim v == target)

/-- Whether a pool matches a (class, role) pair in the background
reconciler: both selector labels must exist and contain the value. -/
def poolMatches (className role : String) (p : Pool) : Bool :=
  match lookupMap p.labels clusterClassLabel with
  | none => false
  | some classSel =>
    if ! labelContainsValue classSel className then false
    else
      match lookupMap p.labels roleLabel with
      | none => false
      | some roleSel => labelContainsValue roleSel role

/-- findPool of cluster_reconciler.go: list all pools and return the
first one matching class and role client-side; none models the Go
empty-string result for no match. -/
def findPool (pools : List Pool) (className role : String) : Option String :=
  (pools.find? (poolMatches className role)).map Pool.name

/-- findPool of extension.go (hook path): the List call carries a
server-side MatchingLabels selector, i.e. exact equality on both label
values; the first item of the filtered list is returned. -/
def hookFindPool (pools : List Pool) (className role : String) : Option String :=
  match pools.filter (fun p =>
      lookupMap p.labels clusterClassLabel == some className
        && lookupMap p.labels roleLabel == some role) with
  | [] => none
  | p :: _ => some p.name

/-- Outcome of resolveIPAddress: the Go ("", false, nil) is pending,
(addr, true, nil) is ready, and a non-nil error is err. -/
inductive ResolveOutcome where
  | err (msg : String)
  | pending
  | ready (ip : String)
deriving DecidableEq, Repr

/-- resolveIPAddress of cluster_reconciler.go over an injectable
IPAddress lookup: absent/empty addressRef name is pending; a missing
record is pending; an empty record value is pending; a non-not-found
lookup failure is an error; otherwise ready with the value. -/
def resolveIPAddress (getAddr : String → GetResult IPAddress) (claim : Claim) : ResolveOutcome :=
  match claim.addressRefName with
  | none => ResolveOutcome.pending
  | some addressName =>
    if addressName == "" then ResolveOutcome.pending
    else
      match getAddr addressName with
      | GetResult.notFound => ResolveOutcome.pending
      | GetResult.failed m => ResolveOutcome.err ("get IPAddress: " ++ m)
      | GetResult.found ip =>
        if ip.address == "" then ResolveOutcome.pending
        else ResolveOutcome.ready ip.address

/-- Owner reference the reconciler sets on a claim
(metav1.NewControllerRef(cluster, ...WithKind("Cluster"))). -/
def clusterOwnerRef (c : Cluster) : OwnerReference :=
  { kind := "Cluster", name := c.name }

/-- Error message of the apiserver for a create on an existing claim. -/
def claimAlreadyExistsMsg (n : String) : String :=
  "ipaddressclaims.ipam.cluster.x-k8s.io " ++ goQuote n ++ " already exists"

/-- Create a claim: fails with already-exists when a claim with the same
(namespace, name) is present (the backing store's atomic create). -/
def createClaim (s : Store) (c : Claim) : Except String Store :=
  if (storeGetClaimOpt s c.ns c.name).isSome then
    Except.error (claimAlreadyExistsMsg c.name)
  else
    Except.ok (storeAddClaim s c)

/-- Error message of ensureClaim when no pool matches
("no matching ip pool for class %q" — the role is not mentioned). -/
def cpNoPoolMsg (className : String) : String :=
  "no matching ip pool for class " ++ goQuote className

/-- Error message of ensureClaimWithRole when no pool matches
("no matching ip pool for class %q role %q"). -/
def roleNoPoolMsg (className role : String) : String :=
  "no matching ip pool for class " ++ goQuote className ++ " role " ++ goQuote role

/-- The claim object ensureClaim constructs before creating it. -/
def cpNewClaim (cluster : Cluster) (claimName poolName : String) : Claim :=
  { name := claimName
    ns := cluster.ns
    labels := [(roleLabel, controlPlaneRole)]
    ownerReferences := [clusterOwnerRef cluster]
    poolRef := some { apiGroup := ipamGroup, kind := globalPoolKind, name := poolName }
    addressRefName := none }

/-- The claim object ensureClaimWithRole constructs before creating it. -/
def roleNewClaim (cluster : Cluster) (claimName poolName role : String) : Claim :=
  { name := claimName
    ns := cluster.ns
    labels := [(roleLabel, role)]
    ownerReferences := [clusterOwnerRef cluster]
    poolRef := some { apiGroup := ipamGroup, kind := globalPoolKind, name := poolName }
    addressRefName := none }

/-- ensureClaim of cluster_reconciler.go.  sGet is the store observed by
the initial Get (and the pool listing); sNow is the store against which
the Update or Create executes, so a concurrent creator is modelled by
sGet lacking the claim while sNow holds it.  On a found claim without
owner references the claim is adopted; on a found claim with owners it
is returned unchanged; otherwise a pool is resolved and a claim created.
The Create error path returns the wrapped error unconditionally: there
is no already-exists branch in this function. -/
def ensureClaimWith (sGet sNow : Store) (cluster : Cluster) (claimName : String) :
    Except String (Claim × Store) :=
  match storeGetClaimOpt sGet cluster.ns claimName with
  | some claim =>
    if claim.ownerReferences.isEmpty then
      let adopted := { claim with ownerReferences := [clusterOwnerRef cluster] }
      Except.ok (adopted, storeUpdateClaim sNow adopted)
    else
      Except.ok (claim, sNow)
  | none =>
    match findPool sGet.pools (clusterClassOf cluster) controlPlaneRole with
    | none => Except.error (cpNoPoolMsg (clusterClassOf cluster))
    | some poolName =>
      let claim := cpNewClaim cluster claimName poolName
      match createClaim sNow claim with
      | Except.error e => Except.error ("create IPAddressClaim: " ++ e)
      | Except.ok s1 => Except.ok (claim, s1)

/-- ensureClaimWithRole of cluster_reconciler.go: same flow as
ensureClaim but parameterized by the role, and the no-pool error names
both the class and the role. -/
def ensureClaimWithRoleW (sGet sNow : Store) (cluster : Cluster) (claimName role : String) :
    Except String (Claim × Store) :=
  match storeGetClaimOpt sGet cluster.ns claimName with
  | some claim =>
    if claim.ownerReferences.isEmpty then
      let adopted := { claim with ownerReferences := [clusterOwnerRef cluster] }
      Except.ok (adopted, storeUpdateClaim sNow adopted)
    else
      Except.ok (claim, sNow)
  | none =>
    match findPool sGet.pools (clusterClassOf cluster) role with
    | none => Except.error (roleNoPoolMsg (clusterClassOf cluster) role)
    | some poolName =>
      let claim := roleNewClaim cluster claimName poolName role
      match createClaim sNow claim with
      | Except.error e => Except.error ("create IPAddressClaim: " ++ e)
      | Except.ok s1 => Except.ok (claim, s1)

/-- getClusterClass of cluster_reconciler.go: cluster-scoped lookup
first, then the namespace-scoped fallback. -/
def getClusterClass (s : Store) (className ns : String) : Except String ClusterClass :=
  match s.classesGlobal.find? (fun c => c.name == className) with
  | some cc => Except.ok cc
  | none =>
    match s.classesNs.find? (fun p => p.fst == ns && p.snd.name == className) with
    | some p => Except.ok p.snd
    | none =>
      Except.error ("get ClusterClass " ++ goQuote className ++
        " (tried both cluster-scoped and namespace " ++ goQuote ns ++ "): not found")

/-- hasClusterVipVariable of cluster_reconciler.go: scans the declared
variables of the ClusterClass for the name clusterVip. -/
def hasClusterVipVariable (cc : ClusterClass) : Bool :=
  cc.variableNames.any (fun v => v == "clusterVip")

/-- Replace the first variable with the given name in place, else append
a new one (the update-or-append loop of patchClusterEndpoint). -/
def upsertVariable : List ClusterVariable → String → String → List ClusterVariable
  | [], n, v => [{ name := n, value := v }]
  | x :: xs, n, v =>
    if x.name == n then { name := n, value := v } :: xs
    else x :: upsertVariable xs n v

/-- patchClusterEndpoint of cluster_reconciler.go: set host, default the
port only when zero, then — if the resolved ClusterClass declares the
clusterVip variable — upsert that variable with the %q-quoted value.
The returned cluster is what the merge patch writes. -/
def patchClusterEndpoint (s : Store) (defaultPort : Int) (cluster : Cluster)
    (ip clusterNamespace : String) : Except String Cluster :=
  let ep := cluster.endpoint
  let c1 := { cluster with
    endpoint := { host := ip, port := if ep.port == 0 then defaultPort else ep.port } }
  match c1.topology with
  | none => Except.ok c1
  | some topo =>
    match getClusterClass s topo.className clusterNamespace with
    | Except.error e => Except.error ("get ClusterClass: " ++ e)
    | Except.ok cc =>
      if hasClusterVipVariable cc then
        Except.ok { c1 with
          topology := some { topo with
            vars := upsertVariable topo.vars "clusterVip" (goQuote ip) } }
      else
        Except.ok c1

/-- The allocation part of ensureIngressVIP (everything after the skip
check): ensure the ingress claim, resolve the address, and on ready
patch the VIP into both the annotations and the labels of the cluster;
on pending return without error (and without any requeue signal). -/
def ensureIngressVIPAllocate (s : Store) (cluster : Cluster) : Except String (Cluster × Store) :=
  match ensureClaimWithRoleW s s cluster ("vip-ingress-" ++ cluster.name) ingressRole with
  | Except.error e => Except.error ("ensure ingress IPAddressClaim: " ++ e)
  | Except.ok (claim, s1) =>
    match resolveIPAddress (storeGetAddr s1 cluster.ns) claim with
    | ResolveOutcome.err e => Except.error ("resolve ingress IPAddress: " ++ e)
    | ResolveOutcome.pending => Except.ok (cluster, s1)
    | ResolveOutcome.ready ip =>
      let c1 := { cluster with
        annotations := setMap cluster.annotations ingressVipKey ip
        labels := setMap cluster.labels ingressVipKey ip }
      Except.ok (c1, storeUpdateCluster s1 c1)

/-- ensureIngressVIP of cluster_reconciler.go: skip when the ingress VIP
annotation is already non-empty; otherwise allocate. -/
def ensureIngressVIP (s : Store) (cluster : Cluster) : Except String (Cluster × Store) :=
  match lookupMap cluster.annotations ingressVipKey with
  | some v =>
    if v != "" then Except.ok (cluster, s)
    else ensureIngressVIPAllocate s cluster
  | none => ensureIngressVIPAllocate s cluster

/-- Result of one background reconcile invocation: requeueAfter in
seconds, 0 meaning no requeue (ctrl.Result). -/
structure RcResult where
  requeueAfter : Nat
deriving DecidableEq, Repr

/-- Reconcile of cluster_reconciler.go over the sequential store: fetch
the cluster, skip non-topology clusters, ensure the ingress VIP unless
disabled by annotation, then either skip control-plane allocation (host
already set — still attempting claim adoption, errors swallowed) or run
ensureClaim / resolveIPAddress / patchClusterEndpoint, requeueing after
the fixed delay when the address is pending. -/
def Reconcile (defaultPort : Int) (s : Store) (ns n : String) :
    Except String (RcResult × Store) :=
  match storeGetClusterOpt s ns n with
  | none => Except.ok ({ requeueAfter := 0 }, s)
  | some cluster =>
    match cluster.topology with
    | none => Except.ok ({ requeueAfter := 0 }, s)
    | some topo =>
      if topo.className == "" then Except.ok ({ requeueAfter := 0 }, s)
      else
        let ingressStep : Except String (Cluster × Store) :=
          if (lookupMap cluster.annotations ingressEnabledKey).getD "" != "false" then
            ensureIngressVIP s cluster
          else
            Except.ok (cluster, s)
        match ingressStep with
        | Except.error e => Except.error e
        | Except.ok (c1, s1) =>
          if c1.endpoint.host != "" then
            let s2 :=
              match ensureClaimWith s1 s1 c1 ("vip-cp-" ++ c1.name) with
              | Except.ok (_, sx) => sx
              | Except.error _ => s1
            Except.ok ({ requeueAfter := 0 }, s2)
          else
            match ensureClaimWith s1 s1 c1 ("vip-cp-" ++ c1.name) with
            | Except.error e => Except.error e
            | Except.ok (claim, s2) =>
              match resolveIPAddress (storeGetAddr s2 c1.ns) claim with
              | ResolveOutcome.err e => Except.error e
              | ResolveOutcome.pending =>
                Except.ok ({ requeueAfter := defaultRequeueDelaySeconds }, s2)
              | ResolveOutcome.ready ip =>
                match patchClusterEndpoint s2 defaultPort c1 ip c1.ns with
                | Except.error e => Except.error e
                | Except.ok c2 =>
                  Except.ok ({ requeueAfter := 0 }, storeUpdateCluster s2 c2)

/-- getIPFromClaim of extension.go: any failure — absent or empty
addressRef, a failed or not-found IPAddress Get, or an empty address
value — is an error; there is no special not-found case here. -/
def getIPFromClaim (getAddr : String → GetResult IPAddress) (claim : Claim) :
    Except String String :=
  match claim.addressRefName with
  | none => Except.error "IP not allocated yet (claim is pending)"
  | some addressName =>
    if addressName == "" then Except.error "IP not allocated yet (claim is pending)"
    else
      match getAddr addressName with
      | GetResult.failed m => Except.error ("get IPAddress: " ++ m)
      | GetResult.notFound =>
        Except.error ("get IPAddress: " ++ goQuote addressName ++ " not found")
      | GetResult.found ip =>
        if ip.address == "" then Except.error "IP address not found in IPAddress resource"
        else Except.ok ip.address

/-- Outcome of one iteration of the hook path's polling loop. -/
inductive PollOutcome where
  | done (ip : String)
  | retry
  | abort (msg : String)
deriving DecidableEq, Repr

/-- One iteration of the waitForIPAllocation loop body: when no claim is
in hand, fetch it — not-found means retry, any other fetch failure
aborts with that error; with a claim in hand, any getIPFromClaim error
(including non-not-found IPAddress lookup failures) means retry. -/
def pollOnce (getClaimRes : GetResult Claim) (getAddr : String → GetResult IPAddress)
    (existingClaim : Option Claim) : PollOutcome :=
  let claimInHand : Except PollOutcome Claim :=
    match existingClaim with
    | some claim => Except.ok claim
    | none =>
      match getClaimRes with
      | GetResult.found claim => Except.ok claim
      | GetResult.notFound => Except.error PollOutcome.retry
      | GetResult.failed m => Except.error (PollOutcome.abort m)
  match claimInHand with
  | Except.error o => o
  | Except.ok claim =>
    match getIPFromClaim getAddr claim with
    | Except.error _ => PollOutcome.retry
    | Except.ok ip => PollOutcome.done ip

/-- Timeout message of waitForIPAllocation. -/
def waitTimeoutMsg : String := "timeout waiting for IP allocation after 25s"

/-- The waitForIPAllocation loop over a trace of client responses, one
pair per iteration; the list length is the iteration budget (timeout
divided by interval).  After the first iteration the existing claim is
reset so later iterations re-fetch. -/
def waitLoop : List (GetResult Claim × (String → GetResult IPAddress)) → Option Claim →
    Except String String
  | [], _ => Except.error waitTimeoutMsg
  | (gc, ga) :: rest, ec =>
    match pollOnce gc ga ec with
    | PollOutcome.done ip => Except.ok ip
    | PollOutcome.abort m => Except.error ("error waiting for IP allocation: " ++ m)
    | PollOutcome.retry => waitLoop rest none

/-- waitForIPAllocation of extension.go against a store that does not
change during the wait: every iteration sees the same responses. -/
def waitForIPAllocation (s : Store) (ns claimName : String) (existingClaim : Option Claim) :
    Except String String :=
  let getClaimRes : GetResult Claim :=
    match storeGetClaimOpt s ns claimName with
    | some c => GetResult.found c
    | none => GetResult.notFound
  waitLoop (List.replicate pollIterations (getClaimRes, storeGetAddr s ns)) existingClaim

/-- The claim object preallocateIP constructs: role label plus the
cluster-name label, and no owner reference (the Cluster does not exist
in storage yet). -/
def hookNewClaim (cluster : Cluster) (claimName poolName : String) : Claim :=
  { name := claimName
    ns := cluster.ns
    labels := [(roleLabel, controlPlaneRole), ("cluster.x-k8s.io/cluster-name", cluster.name)]
    ownerReferences := []
    poolRef := some { apiGroup := ipamGroup, kind := globalPoolKind, name := poolName }
    addressRefName := none }

/-- preallocateIP of extension.go.  sGet is the store at the initial
Get; sLater is the store from the create attempt onward, so a claim
present in sLater but not sGet models the concurrent creator.  When the
create hits already-exists the function re-fetches through
waitForIPAllocation instead of failing. -/
def preallocateIP (sGet sLater : Store) (cluster : Cluster) (claimName poolName : String) :
    Except String String :=
  match storeGetClaimOpt sGet cluster.ns claimName with
  | some claim => waitForIPAllocation sGet cluster.ns claimName (some claim)
  | none =>
    let claim := hookNewClaim cluster claimName poolName
    match createClaim sLater claim with
    | Except.error _ => waitForIPAllocation sLater cluster.ns claimName none
    | Except.ok s1 => waitForIPAllocation s1 cluster.ns claimName none

/-- Whether the first character list starts with the second. -/
def startsWithChars : List Char → List Char → Bool
  | _, [] => true
  | [], _ :: _ => false
  | a :: as, b :: bs => a == b && startsWithChars as bs

/-- Whether a character list contains the second as a contiguous run. -/
def hasSubChars : List Char → List Char → Bool
  | [], pat => pat.isEmpty
  | l@(_ :: rest), pat => startsWithChars l pat || hasSubChars rest pat

/-- Substring containment test (used to state that an error message
names, or fails to name, a value). -/
def strHasSub (s pat : String) : Bool :=
  hasSubChars s.data pat.data

/-- Lookup a topology variable value by name. -/
def lookupVar (l : List ClusterVariable) (n : String) : Option String :=
  (l.find? (fun v => v.name == n)).map ClusterVariable.value

/-! Concrete fixtures used by counterexamples and witnesses. -/

/-- A pool whose selector labels carry comma-separated value lists. -/
def multiPool : Pool :=
  { name := "p1", labels := [(clusterClassLabel, "a,b,c"), (roleLabel, "control-plane,ingress")] }

/-- A pool matching class example and the control-plane role exactly. -/
def cpPool : Pool :=
  { name := "pool-cp", labels := [(clusterClassLabel, "example"), (roleLabel, controlPlaneRole)] }

/-- A cluster with topology class example and no endpoint yet. -/
def c1cluster : Cluster :=
  { name := "c1", ns := "default", annotations := [], labels := []
    topology := some { className := "example", vars := [] }
    endpoint := { host := "", port := 0 } }

/-- Store as seen by the Get inside ensureClaim: no claim yet. -/
def c1sGet : Store :=
  { clusters := [c1cluster], pools := [cpPool], claims := [], addresses := []
    classesGlobal := [], classesNs := [] }

/-- The same world after a concurrent creator (the hook) added the claim. -/
def c1sNow : Store :=
  { c1sGet with claims := [hookNewClaim c1cluster "vip-cp-c1" "pool-cp"] }

/-- The racing world once the external pool manager bound the claim. -/
def c1sBound : Store :=
  { c1sGet with
    claims := [{ hookNewClaim c1cluster "vip-cp-c1" "pool-cp" with addressRefName := some "vip-addr" }]
    addresses := [{ name := "vip-addr", ns := "default", address := "10.0.0.15" }] }

/-- A claim already owned by its cluster (for the idempotence witness). -/
def c1ownedClaim : Claim := cpNewClaim c1cluster "vip-cp-c1" "pool-cp"

/-- A store already holding the owned claim. -/
def c1sOwned : Store :=
  { c1sGet with claims := [c1ownedClaim] }

/-- A cluster whose endpoint host was set manually (ingress allocation
disabled by annotation to isolate the control-plane path). -/
def c2cluster : Cluster :=
  { name := "c1", ns := "default"
    annotations := [(ingressEnabledKey, "false")], labels := []
    topology := some { className := "example", vars := [] }
    endpoint := { host := "203.0.113.5", port := 6443 } }

/-- Store with the manually configured cluster, a matching pool and no
claims. -/
def c2s : Store :=
  { clusters := [c2cluster], pools := [cpPool], claims := [], addresses := []
    classesGlobal := [], classesNs := [] }

/-- The store Reconcile produces from c2s: a control-plane claim was
created although the endpoint host was already set. -/
def c2sAfter : Store :=
  storeAddClaim c2s (cpNewClaim c2cluster "vip-cp-c1" "pool-cp")

/-- A claim whose addressRef is set (used for the polling counterexample). -/
def c7claim : Claim :=
  { name := "vip-cp-c1", ns := "default", labels := [(roleLabel, controlPlaneRole)]
    ownerReferences := [], poolRef := some { apiGroup := ipamGroup, kind := globalPoolKind, name := "pool-cp" }
    addressRefName := some "vip-addr" }

/-- An IPAddress lookup that fails with a transport error. -/
def c7failGet : String → GetResult IPAddress :=
  fun _ => GetResult.failed "connection refused"

/-- An ingress claim that exists, is owned, and is still unbound. -/
def c8ingressClaim : Claim :=
  { name := "vip-ingress-c1", ns := "default", labels := [(roleLabel, ingressRole)]
    ownerReferences := [{ kind := "Cluster", name := "c1" }]
    poolRef := some { apiGroup := ipamGroup, kind := globalPoolKind, name := "pool-ing" }
    addressRefName := none }

/-- A cluster whose control-plane endpoint is already set and whose
ingress VIP is still being allocated. -/
def c8cluster : Cluster :=
  { name := "c1", ns := "default", annotations := [], labels := []
    topology := some { className := "example", vars := [] }
    endpoint := { host := "203.0.113.5", port := 6443 } }

/-- Store for the ingress-pending reconcile: pending ingress claim, no
control-plane pool. -/
def c8s : Store :=
  { clusters := [c8cluster], pools := [], claims := [c8ingressClaim], addresses := []
    classesGlobal := [], classesNs := [] }

/-- A cluster of class prod with no pools available. -/
def c9cluster : Cluster :=
  { name := "c9", ns := "default", annotations := [], labels := []
    topology := some { className := "prod", vars := [] }
    endpoint := { host := "", port := 0 } }

/-- Store with no pools at all. -/
def c9s : Store :=
  { clusters := [c9cluster], pools := [], claims := [], addresses := []
    classesGlobal := [], classesNs := [] }

/-- A claim with no addressRef (pending), for the resolver witness. -/
def c4claim : Claim :=
  { name := "vip-cp-w", ns := "default", labels := []
    ownerReferences := [], poolRef := none, addressRefName := none }

/-- An IPAddress lookup in which every record is missing. -/
def c4notFoundGet : String → GetResult IPAddress :=
  fun _ => GetResult.notFound

/-- A ClusterClass declaring the clusterVip variable. -/
def vipClass : ClusterClass :=
  { name := "example", variableNames := ["clusterVip"] }

/-- A ClusterClass not declaring the clusterVip variable. -/
def plainClass : ClusterClass :=
  { name := "plain", variableNames := [] }

/-- Store carrying both cluster classes (cluster-scoped). -/
def c5s : Store :=
  { clusters := [], pools := [], claims := [], addresses := []
    classesGlobal := [vipClass, plainClass], classesNs := [] }

/-- A cluster of the plain class with no endpoint yet. -/
def c6cluster : Cluster :=
  { name := "c6", ns := "default", annotations := [], labels := []
    topology := some { className := "plain", vars := [] }
    endpoint := { host := "", port := 0 } }

/-- What patchClusterEndpoint produces from c6cluster (direct mode). -/
def c6after : Cluster :=
  { c6cluster with endpoint := { host := "10.0.0.15", port := 6443 } }

/-- A cluster of the vip-declaring class (for the C5 witness). -/
def c5cluster : Cluster :=
  { name := "c5", ns := "default", annotations := [], labels := []
    topology := some { className := "example", vars := [] }
    endpoint := { host := "", port := 7443 } }

/-- A cluster awaiting its ingress VIP (annotation unset). -/
def c10cluster : Cluster :=
  { name := "c1", ns := "default", annotations := [], labels := []
    topology := some { className := "example", vars := [] }
    endpoint := { host := "203.0.113.5", port := 6443 } }

/-- A bound ingress claim for c10cluster. -/
def c10claim : Claim :=
  { name := "vip-ingress-c1", ns := "default", labels := [(roleLabel, ingressRole)]
    ownerReferences := [{ kind := "Cluster", name := "c1" }]
    poolRef := some { apiGroup := ipamGroup, kind := globalPoolKind, name := "pool-ing" }
    addressRefName := some "ing-addr" }

/-- Store in which the ingress claim is bound to 10.0.0.40. -/
def c10s : Store :=
  { clusters := [c10cluster], pools := [], claims := [c10claim]
    addresses := [{ name := "ing-addr", ns := "default", address := "10.0.0.40" }]
    classesGlobal := [], classesNs := [] }

/-! Generic list lemmas shared by several proofs. -/

lemma find?_append_eq {α : Type} (l1 l2 : List α) (p : α → Bool) :
    (l1 ++ l2).find? p =
      match l1.find? p with
      | some a => some a
      | none => l2.find? p := by
  induction l1 with
  | nil => simp
  | cons x xs ih =>
    by_cases h : p x <;> simp [List.find?_cons, h, ih]

lemma find?_map_pres {α : Type} (l : List α) (p : α → Bool) (f : α → α)
    (hp : ∀ a, p (f a) = p a) :
    (l.map f).find? p = (l.find? p).map f := by
  induction l with
  | nil => rfl
  | cons x xs ih =>
    by_cases h : p x <;> simp [List.find?_cons, hp, h, ih]

lemma filter_map_pres_length {α : Type} (l : List α) (p : α → Bool) (f : α → α)
    (hp : ∀ a, p (f a) = p a) :
    ((l.map f).filter p).length = (l.filter p).length := by
  induction l with
  | nil => rfl
  | cons x xs ih =>
    by_cases h : p x <;> simp [List.filter_cons, hp, h, ih]

example : labelContainsValue "a,b,c" "b" = true := by decide
example : labelContainsValue "class1, class2, class3" "class2" = true := by decide
example : labelContainsValue "control-plane,ingress" "other" = false := by decide
example : findPool [multiPool] "b" "ingress" = some "p1" := by decide
example : hookFindPool [multiPool] "b" "ingress" = none := by decide
example :
    ensureClaimWith c1sGet c1sNow c1cluster "vip-cp-c1" =
      Except.error ("create IPAddressClaim: " ++ claimAlreadyExistsMsg "vip-cp-c1") := by rfl
example : preallocateIP c1sGet c1sBound c1cluster "vip-cp-c1" "pool-cp" = Except.ok "10.0.0.15" := by rfl
example : ensureClaimWith c1sOwned c1sOwned c1cluster "vip-cp-c1" = Except.ok (c1ownedClaim, c1sOwned) := by rfl

/-- C3: counterexample.  The claim asserts that the pool resolver (both
entry points) lists all pools without server-side label filtering and
matches comma-separated selector values.  The background resolver does,
but the hook path's findPool filters server-side by exact label
equality: the multi-value pool matches (b, ingress) in the background
resolver and is not found by the hook resolver at the same input. -/
theorem C3_counterexample :
    findPool [multiPool] "b" "ingress" = some "p1"
    ∧ hookFindPool [multiPool] "b" "ingress" = none := by
  exact ⟨by decide, by decide⟩

/-- C3 (amended): the background reconciler's findPool lists all pools
and returns the first whose class and role selector labels, split on
commas with whitespace trimmed, contain the requested values — so the
multi-value pool matches (b, ingress) and not (b, other); the hook
path's findPool instead uses a server-side exact-equality label
selector, returning pools only when both labels equal the requested
values verbatim. -/
theorem C3_amended :
    (findPool [multiPool] "b" "ingress" = some "p1"
      ∧ findPool [multiPool] "b" "other" = none
      ∧ hookFindPool [multiPool] "b" "ingress" = none)
    ∧ (∀ pools clsName role n, findPool pools clsName role = some n →
        ∃ p, p ∈ pools ∧ poolMatches clsName role p = true ∧ p.name = n)
    ∧ (∀ pools clsName role n, hookFindPool pools clsName role = some n →
        ∃ p, p ∈ pools ∧ lookupMap p.labels clusterClassLabel = some clsName
          ∧ lookupMap p.labels roleLabel = some role ∧ p.name = n) := by
  refine ⟨⟨by decide, by decide, by decide⟩, ?_, ?_⟩
  · intro pools clsName role n h
    unfold findPool at h
    rw [Option.map_eq_some'] at h
    obtain ⟨p, hp, hn⟩ := h
    exact ⟨p, List.mem_of_find?_eq_some hp, List.find?_some hp, hn⟩
  · intro pools clsName role n h
    unfold hookFindPool at h
    cases hf : pools.filter (fun p =>
        lookupMap p.labels clusterClassLabel == some clsName
          && lookupMap p.labels roleLabel == some role) with
    | nil => rw [hf] at h; cases h
    | cons p rest =>
      rw [hf] at h
      have hn : p.name = n := Option.some.inj h
      have hmem : p ∈ pools.filter (fun p =>
          lookupMap p.labels clusterClassLabel == some clsName
            && lookupMap p.labels roleLabel == some role) := by
        rw [hf]; exact List.mem_cons_self p rest
      obtain ⟨hmem', hpred⟩ := List.mem_filter.mp hmem
      rw [Bool.and_eq_true] at hpred
      exact ⟨p, hmem', eq_of_beq hpred.1, eq_of_beq hpred.2, hn⟩

/-- C3 witness: the soundness statements of the amended claim applied at
the multi-value pool. -/
theorem C3_witness :
    ∃ p, p ∈ [multiPool] ∧ poolMatches "b" "ingress" p = true ∧ p.name = "p1" :=
  C3_amended.2.1 [multiPool] "b" "ingress" "p1" (by decide)

/-- C4: resolveIPAddress returns pending, and not an error, exactly when
the claim's addressRef name is absent or empty, the referenced record is
missing, or the record's address value is empty; in the remaining case
it returns ready with that address value.  The hypothesis excludes
injected transport failures on the record lookup (those yield errors and
are outside the claim). -/
theorem C4_resolve (ga : String → GetResult IPAddress) (claim : Claim)
    (hnf : ∀ n m, ga n ≠ GetResult.failed m) :
    (resolveIPAddress ga claim = ResolveOutcome.pending ↔
      claim.addressRefName = none ∨ claim.addressRefName = some "" ∨
        ∃ n, claim.addressRefName = some n ∧ n ≠ "" ∧
          (ga n = GetResult.notFound ∨ ∃ r, ga n = GetResult.found r ∧ r.address = ""))
    ∧ (∀ n r, claim.addressRefName = some n → n ≠ "" → ga n = GetResult.found r →
        r.address ≠ "" → resolveIPAddress ga claim = ResolveOutcome.ready r.address)
    ∧ (∀ m, resolveIPAddress ga claim ≠ ResolveOutcome.err m) := by
  refine ⟨?_, ?_, ?_⟩
  · cases han : claim.addressRefName with
    | none => simp [resolveIPAddress, han]
    | some n =>
      by_cases hn : n = ""
      · subst hn
        simp [resolveIPAddress, han]
      · have hnb : (n == "") = false := by simp [hn]
        cases hga : ga n with
        | failed m => exact absurd hga (hnf n m)
        | notFound =>
          simp [resolveIPAddress, han, hnb, hga, hn]
        | found r =>
          by_cases hr : r.address = ""
          · simp [resolveIPAddress, han, hnb, hga, hn, hr]
          · have hrb : (r.address == "") = false := by simp [hr]
            simp [resolveIPAddress, han, hnb, hga, hn, hr, hrb]
  · intro n r h1 h2 h3 h4
    have hnb : (n == "") = false := by simp [h2]
    have hrb : (r.address == "") = false := by simp [h4]
    simp [resolveIPAddress, h1, hnb, h3, hrb]
  · intro m
    cases han : claim.addressRefName with
    | none => simp [resolveIPAddress, han]
    | some n =>
      by_cases hn : n = ""
      · subst hn
        simp [resolveIPAddress, han]
      · have hnb : (n == "") = false := by simp [hn]
        cases hga : ga n with
        | failed mm => exact absurd hga (hnf n mm)
        | notFound => simp [resolveIPAddress, han, hnb, hga]
        | found r =>
          by_cases hr : r.address = ""
          · simp [resolveIPAddress, han, hnb, hga, hr]
          · have hrb : (r.address == "") = false := by simp [hr]
            simp [resolveIPAddress, han, hnb, hga, hrb]

/-- C4 witness: a claim with no addressRef resolves to pending. -/
theorem C4_witness :
    resolveIPAddress c4notFoundGet c4claim = ResolveOutcome.pending :=
  (C4_resolve c4notFoundGet c4claim (fun _ _ h => GetResult.noConfusion h)).1.mpr
    (Or.inl rfl)

lemma lookupVar_upsert_same (l : List ClusterVariable) (n v : String) :
    lookupVar (upsertVariable l n v) n = some v := by
  induction l with
  | nil => simp [upsertVariable, lookupVar, List.find?]
  | cons x xs ih =>
    by_cases h : x.name == n
    · simp [upsertVariable, h, lookupVar, List.find?_cons]
    · simp only [upsertVariable, h, if_false, Bool.false_eq_true, ite_false]
      simp only [lookupVar, List.find?_cons, h] at ih ⊢
      exact ih

lemma lookupVar_upsert_other (l : List ClusterVariable) (n v m : String) (hm : m ≠ n) :
    lookupVar (upsertVariable l n v) m = lookupVar l m := by
  have hnm : (n == m) = false := by simp [Ne.symm hm]
  induction l with
  | nil => simp [upsertVariable, lookupVar, List.find?, hnm]
  | cons x xs ih =>
    by_cases h : x.name == n
    · have hx : x.name = n := eq_of_beq h
      simp [upsertVariable, h, lookupVar, List.find?_cons, hx, hnm]
    · simp only [upsertVariable, h, if_false, Bool.false_eq_true, ite_false]
      by_cases hxm : x.name == m
      · simp [lookupVar, List.find?_cons, hxm]
      · simp only [lookupVar, List.find?_cons, hxm] at ih ⊢
        exact ih

/-- C5: for a target whose resource class resolves, the endpoint patch
changes only endpoint.host and endpoint.port when the class does not
declare the clusterVip variable; when it does, the patch additionally
upserts the clusterVip variable — replacing it in place when present,
else appending — with the same value serialized as a quoted string, and
no other target fields change. -/
theorem C5_patch (s : Store) (dp : Int) (c : Cluster) (ip nsp : String)
    (topo : Topology) (cc : ClusterClass)
    (ht : c.topology = some topo)
    (hcc : getClusterClass s topo.className nsp = Except.ok cc) :
    ∃ c', patchClusterEndpoint s dp c ip nsp = Except.ok c'
      ∧ c'.name = c.name ∧ c'.ns = c.ns
      ∧ c'.annotations = c.annotations ∧ c'.labels = c.labels
      ∧ c'.endpoint.host = ip
      ∧ (hasClusterVipVariable cc = false → c'.topology = c.topology)
      ∧ (hasClusterVipVariable cc = true →
          c'.topology = some { topo with vars := upsertVariable topo.vars "clusterVip" (goQuote ip) })
      ∧ lookupVar (upsertVariable topo.vars "clusterVip" (goQuote ip)) "clusterVip" = some (goQuote ip)
      ∧ (∀ m, m ≠ "clusterVip" →
          lookupVar (upsertVariable topo.vars "clusterVip" (goQuote ip)) m = lookupVar topo.vars m) := by
  by_cases hv : hasClusterVipVariable cc
  · refine ⟨{ c with
        topology := some { topo with vars := upsertVariable topo.vars "clusterVip" (goQuote ip) },
        endpoint := { host := ip, port := if c.endpoint.port == 0 then dp else c.endpoint.port } },
      ?_, rfl, rfl, rfl, rfl, rfl, ?_, ?_,
      lookupVar_upsert_same topo.vars "clusterVip" (goQuote ip),
      fun m hm => lookupVar_upsert_other topo.vars "clusterVip" (goQuote ip) m hm⟩
    · simp [patchClusterEndpoint, ht, hcc, hv]
    · intro hfalse; rw [hv] at hfalse; cases hfalse
    · intro _; rfl
  · rw [Bool.not_eq_true] at hv
    refine ⟨{ c with
        endpoint := { host := ip, port := if c.endpoint.port == 0 then dp else c.endpoint.port } },
      ?_, rfl, rfl, rfl, rfl, rfl, ?_, ?_,
      lookupVar_upsert_same topo.vars "clusterVip" (goQuote ip),
      fun m hm => lookupVar_upsert_other topo.vars "clusterVip" (goQuote ip) m hm⟩
    · simp [patchClusterEndpoint, ht, hcc, hv]
    · intro _; rfl
    · intro htrue; rw [hv] at htrue; cases htrue

/-- C5 witness: the patch applied to a cluster of the vip-declaring
class produces a cluster whose clusterVip variable holds the quoted
value. -/
theorem C5_witness :
    ∃ c', patchClusterEndpoint c5s 6443 c5cluster "10.0.0.15" "default" = Except.ok c'
      ∧ c'.name = c5cluster.name ∧ c'.ns = c5cluster.ns
      ∧ c'.annotations = c5cluster.annotations ∧ c'.labels = c5cluster.labels
      ∧ c'.endpoint.host = "10.0.0.15"
      ∧ (hasClusterVipVariable vipClass = false → c'.topology = c5cluster.topology)
      ∧ (hasClusterVipVariable vipClass = true →
          c'.topology = some { className := "example", vars := upsertVariable [] "clusterVip" (goQuote "10.0.0.15") })
      ∧ lookupVar (upsertVariable [] "clusterVip" (goQuote "10.0.0.15")) "clusterVip" = some (goQuote "10.0.0.15")
      ∧ (∀ m, m ≠ "clusterVip" →
          lookupVar (upsertVariable [] "clusterVip" (goQuote "10.0.0.15")) m = lookupVar [] m) :=
  C5_patch c5s 6443 c5cluster "10.0.0.15" "default"
    { className := "example", vars := [] } vipClass rfl rfl

/-- C6: patchClusterEndpoint sets endpoint.host to the resolved value
and sets endpoint.port to the configured default exactly when the port
was zero beforehand; a nonzero pre-set port is kept. -/
theorem C6_port (s : Store) (dp : Int) (c : Cluster) (ip nsp : String) (c' : Cluster)
    (h : patchClusterEndpoint s dp c ip nsp = Except.ok c') :
    c'.endpoint.host = ip
    ∧ (c.endpoint.port = 0 → c'.endpoint.port = dp)
    ∧ (c.endpoint.port ≠ 0 → c'.endpoint.port = c.endpoint.port) := by
  have hep : c'.endpoint =
      { host := ip, port := if c.endpoint.port == 0 then dp else c.endpoint.port } := by
    simp only [patchClusterEndpoint] at h
    split at h
    · exact congrArg Cluster.endpoint (Except.ok.inj h).symm
    · split at h
      · exact Except.noConfusion h
      · split at h
        · exact congrArg Cluster.endpoint (Except.ok.inj h).symm
        · exact congrArg Cluster.endpoint (Except.ok.inj h).symm
  refine ⟨by rw [hep], ?_, ?_⟩
  · intro h0
    rw [hep]
    simp [h0]
  · intro h0
    have : (c.endpoint.port == 0) = false := by
      simp only [beq_eq_false_iff_ne, ne_eq]
      exact h0
    rw [hep]
    simp [this]

/-- C6 witness: a zero port is defaulted while the host is set. -/
theorem C6_witness :
    c6after.endpoint.host = "10.0.0.15"
    ∧ (c6cluster.endpoint.port = 0 → c6after.endpoint.port = 6443)
    ∧ (c6cluster.endpoint.port ≠ 0 → c6after.endpoint.port = c6cluster.endpoint.port) :=
  C6_port c5s 6443 c6cluster "10.0.0.15" "default" c6after rfl

/-- C7: counterexample.  The claim says any non-not-found query error
during hook-path polling aborts the loop immediately.  But an injected
transport failure on the IPAddress lookup (not a not-found) makes the
iteration continue polling instead of aborting: getIPFromClaim errors
are all treated as retry by the loop body. -/
theorem C7_counterexample :
    pollOnce (GetResult.found c7claim) c7failGet none = PollOutcome.retry
    ∧ pollOnce (GetResult.found c7claim) c7failGet none ≠
        PollOutcome.abort ("get IPAddress: connection refused") := by
  exact ⟨rfl, by decide⟩

/-- C7 (amended): the hook path polls with the fixed 500ms interval and
a 25s hard timeout strictly below the 30s external deadline; a not-found
on the claim fetch continues polling, any other claim-fetch error aborts
the loop immediately with that error, but failures of the IPAddress
lookup — not-found or otherwise — also continue polling; an exhausted
iteration budget yields the timeout error. -/
theorem C7_amended :
    ipAllocationIntervalMs = 500
    ∧ ipAllocationTimeoutMs < hookDeadlineMs
    ∧ (∀ ga, pollOnce GetResult.notFound ga none = PollOutcome.retry)
    ∧ (∀ ga m, pollOnce (GetResult.failed m) ga none = PollOutcome.abort m)
    ∧ (∀ rest ga m, waitLoop ((GetResult.failed m, ga) :: rest) none =
        Except.error ("error waiting for IP allocation: " ++ m))
    ∧ (∀ gc ga claim m, getIPFromClaim ga claim = Except.error m →
        pollOnce gc ga (some claim) = PollOutcome.retry)
    ∧ (∀ ec, waitLoop [] ec = Except.error waitTimeoutMsg) := by
  refine ⟨rfl, by decide, fun ga => rfl, fun ga m => rfl, fun rest ga m => rfl, ?_,
    fun ec => rfl⟩
  intro gc ga claim m h
  simp [pollOnce, h]

/-- C7 witness: a pending claim in hand makes the iteration retry. -/
theorem C7_witness :
    pollOnce (GetResult.found c7claim) (fun _ => GetResult.notFound) (some c7claim) =
      PollOutcome.retry :=
  C7_amended.2.2.2.2.2.1 (GetResult.found c7claim) (fun _ => GetResult.notFound) c7claim
    ("get IPAddress: " ++ goQuote "vip-addr" ++ " not found") rfl

/-- C8: evaluation at the failing input.  The ingress claim resolves to
pending, yet Reconcile returns success with no requeue (requeueAfter 0),
because ensureIngressVIP swallows the pending outcome and the
control-plane branch exits early when the endpoint host is already set —
contradicting the claimed requeue after the fixed 10-second delay (and
the code's own log line "ingress claim not ready, will requeue"). -/
theorem C8_bug :
    resolveIPAddress (storeGetAddr c8s "default") c8ingressClaim = ResolveOutcome.pending
    ∧ Reconcile 6443 c8s "default" "c1" = Except.ok ({ requeueAfter := 0 }, c8s)
    ∧ (0 : Nat) ≠ defaultRequeueDelaySeconds := by
  refine ⟨rfl, rfl, by decide⟩

/-- C9: counterexample.  When no pool matches, the control-plane
ensureClaim fails with "no matching ip pool for class %q": the message
names the class but not the requested role, contrary to the claim that
both are named for every role. -/
theorem C9_counterexample :
    ensureClaimWith c9s c9s c9cluster "vip-cp-c9" = Except.error (cpNoPoolMsg "prod")
    ∧ strHasSub (cpNoPoolMsg "prod") "prod" = true
    ∧ strHasSub (cpNoPoolMsg "prod") controlPlaneRole = false := by
  refine ⟨rfl, by decide, by decide⟩

/-- C9 (amended): with no existing claim and no matching pool,
ensureClaimWithRole fails with a configuration error naming both the
class and the role, while the control-plane ensureClaim fails with one
naming only the class. -/
theorem C9_amended (sGet sNow : Store) (c : Cluster) (n role : String)
    (h1 : storeGetClaimOpt sGet c.ns n = none)
    (h2 : findPool sGet.pools (clusterClassOf c) role = none)
    (h3 : findPool sGet.pools (clusterClassOf c) controlPlaneRole = none) :
    ensureClaimWithRoleW sGet sNow c n role = Except.error (roleNoPoolMsg (clusterClassOf c) role)
    ∧ ensureClaimWith sGet sNow c n = Except.error (cpNoPoolMsg (clusterClassOf c))
    ∧ strHasSub (roleNoPoolMsg "prod" ingressRole) "prod" = true
    ∧ strHasSub (roleNoPoolMsg "prod" ingressRole) ingressRole = true := by
  refine ⟨?_, ?_, by decide, by decide⟩
  · simp [ensureClaimWithRoleW, h1, h2]
  · simp [ensureClaimWith, h1, h3]

/-- C9 witness: the amended statement at the pool-less store. -/
theorem C9_witness :
    ensureClaimWithRoleW c9s c9s c9cluster "vip-ingress-c9" ingressRole =
        Except.error (roleNoPoolMsg (clusterClassOf c9cluster) ingressRole)
    ∧ ensureClaimWith c9s c9s c9cluster "vip-ingress-c9" =
        Except.error (cpNoPoolMsg (clusterClassOf c9cluster))
    ∧ strHasSub (roleNoPoolMsg "prod" ingressRole) "prod" = true
    ∧ strHasSub (roleNoPoolMsg "prod" ingressRole) ingressRole = true :=
  C9_amended c9s c9s c9cluster "vip-ingress-c9" ingressRole rfl rfl rfl

lemma lookupMap_setMap_same (m : StrMap) (k v : String) :
    lookupMap (setMap m k v) k = some v := by
  unfold setMap
  by_cases h : (m.find? (fun kv => kv.fst == k)).isSome
  · simp only [h, if_true]
    unfold lookupMap
    rw [find?_map_pres]
    · obtain ⟨kv0, hkv⟩ := Option.isSome_iff_exists.mp h
      rw [hkv]
      have hk : kv0.fst = k := by
        have hp := List.find?_some hkv
        simpa using hp
      simp [hk]
    · intro a
      by_cases ha : a.fst == k
      · simp [ha]
      · simp [ha]
  · have hn : m.find? (fun kv => kv.fst == k) = none :=
      Option.not_isSome_iff_eq_none.mp h
    rw [hn]
    simp only [Option.isSome_none, Bool.false_eq_true, if_false]
    unfold lookupMap
    rw [find?_append_eq, hn]
    simp [List.find?]

/-- C10: when the ingress address resolves, ensureIngressVIP writes the
address under the vip.capi.gorizond.io/ingress-vip key into both the
annotations and the labels of the cluster (the association-list maps
cover the nil-map case by construction), and applies it as one patch:
the stored cluster is exactly the returned one, whose other fields are
unchanged. -/
theorem C10_ingress (s : Store) (c : Cluster) (claim : Claim) (s1 : Store) (ip : String)
    (hann : lookupMap c.annotations ingressVipKey = none ∨
        lookupMap c.annotations ingressVipKey = some "")
    (hcl : ensureClaimWithRoleW s s c ("vip-ingress-" ++ c.name) ingressRole =
        Except.ok (claim, s1))
    (hres : resolveIPAddress (storeGetAddr s1 c.ns) claim = ResolveOutcome.ready ip) :
    ∃ c2, ensureIngressVIP s c = Except.ok (c2, storeUpdateCluster s1 c2)
      ∧ lookupMap c2.annotations ingressVipKey = some ip
      ∧ lookupMap c2.labels ingressVipKey = some ip
      ∧ c2.name = c.name ∧ c2.ns = c.ns ∧ c2.endpoint = c.endpoint
      ∧ c2.topology = c.topology := by
  have halloc : ensureIngressVIPAllocate s c = Except.ok
      ({ c with
          annotations := setMap c.annotations ingressVipKey ip
          labels := setMap c.labels ingressVipKey ip },
        storeUpdateCluster s1
          { c with
            annotations := setMap c.annotations ingressVipKey ip
            labels := setMap c.labels ingressVipKey ip }) := by
    simp [ensureIngressVIPAllocate, hcl, hres]
  refine ⟨{ c with
      annotations := setMap c.annotations ingressVipKey ip
      labels := setMap c.labels ingressVipKey ip }, ?_,
    lookupMap_setMap_same c.annotations ingressVipKey ip,
    lookupMap_setMap_same c.labels ingressVipKey ip, rfl, rfl, rfl, rfl⟩
  cases hann with
  | inl h =>
    rw [show ensureIngressVIP s c = ensureIngressVIPAllocate s c by
      simp [ensureIngressVIP, h]]
    exact halloc
  | inr h =>
    rw [show ensureIngressVIP s c = ensureIngressVIPAllocate s c by
      simp [ensureIngressVIP, h]]
    exact halloc

/-- C10 witness: the bound ingress claim yields a cluster carrying the
VIP in both maps. -/
theorem C10_witness :
    ∃ c2, ensureIngressVIP c10s c10cluster = Except.ok (c2, storeUpdateCluster c10s c2)
      ∧ lookupMap c2.annotations ingressVipKey = some "10.0.0.40"
      ∧ lookupMap c2.labels ingressVipKey = some "10.0.0.40"
      ∧ c2.name = c10cluster.name ∧ c2.ns = c10cluster.ns
      ∧ c2.endpoint = c10cluster.endpoint ∧ c2.topology = c10cluster.topology :=
  C10_ingress c10s c10cluster c10claim c10s "10.0.0.40" (Or.inl rfl) rfl rfl

lemma claim_key_of_get {s : Store} {ns n : String} {cl : Claim}
    (h : storeGetClaimOpt s ns n = some cl) : cl.ns = ns ∧ cl.name = n := by
  unfold storeGetClaimOpt at h
  have hp := List.find?_some h
  rw [Bool.and_eq_true] at hp
  exact ⟨eq_of_beq hp.1, eq_of_beq hp.2⟩

lemma storeUpdateClaim_get (s : Store) (c : Claim)
    (hex : (storeGetClaimOpt s c.ns c.name).isSome = true) :
    storeGetClaimOpt (storeUpdateClaim s c) c.ns c.name = some c := by
  unfold storeGetClaimOpt at hex
  unfold storeGetClaimOpt storeUpdateClaim
  rw [find?_map_pres]
  · obtain ⟨a, ha⟩ := Option.isSome_iff_exists.mp hex
    rw [ha]
    have hpa := List.find?_some ha
    simp only [] at hpa
    rw [Bool.and_eq_true] at hpa
    simp [hpa]
    intro hcon
    exact absurd (eq_of_beq hpa.2) (hcon (eq_of_beq hpa.1))
  · intro a
    by_cases hpa : (a.ns == c.ns && a.name == c.name) = true
    · simp [hpa]
    · simp [hpa]

lemma claimCount_update (s : Store) (c : Claim) :
    claimCount (storeUpdateClaim s c) c.ns c.name = claimCount s c.ns c.name := by
  unfold claimCount storeUpdateClaim
  apply filter_map_pres_length
  intro a
  by_cases hpa : (a.ns == c.ns && a.name == c.name) = true
  · simp [hpa]
  · simp [hpa]

lemma claimCount_one_of_get (s : Store) (ns n : String) (cl : Claim)
    (h : storeGetClaimOpt s ns n = some cl) (hu : claimCount s ns n ≤ 1) :
    claimCount s ns n = 1 := by
  unfold storeGetClaimOpt at h
  unfold claimCount at hu ⊢
  have hp := List.find?_some h
  simp only [] at hp
  have hm : cl ∈ s.claims.filter (fun c => c.ns == ns && c.name == n) :=
    List.mem_filter.mpr ⟨List.mem_of_find?_eq_some h, hp⟩
  have hpos : 0 < (s.claims.filter (fun c => c.ns == ns && c.name == n)).length :=
    List.length_pos.mpr (List.ne_nil_of_mem hm)
  omega

lemma claimCount_add_one (s : Store) (cl : Claim)
    (h : storeGetClaimOpt s cl.ns cl.name = none) :
    claimCount (storeAddClaim s cl) cl.ns cl.name = 1 := by
  unfold storeGetClaimOpt at h
  unfold claimCount storeAddClaim
  rw [List.filter_append]
  have h0 : s.claims.filter (fun c => c.ns == cl.ns && c.name == cl.name) = [] := by
    rw [List.filter_eq_nil_iff]
    intro a ha
    have := List.find?_eq_none.mp h a ha
    simpa using this
  rw [h0]
  simp

lemma storeAddClaim_get (s : Store) (cl : Claim)
    (h : storeGetClaimOpt s cl.ns cl.name = none) :
    storeGetClaimOpt (storeAddClaim s cl) cl.ns cl.name = some cl := by
  unfold storeGetClaimOpt at h
  unfold storeGetClaimOpt storeAddClaim
  rw [find?_append_eq, h]
  simp [List.find?]

lemma ensureClaimWith_create (s sNow : Store) (c : Cluster) (n poolName : String)
    (hget : storeGetClaimOpt s c.ns n = none)
    (hget2 : storeGetClaimOpt sNow c.ns n = none)
    (hfp : findPool s.pools (clusterClassOf c) controlPlaneRole = some poolName) :
    ensureClaimWith s sNow c n =
      Except.ok (cpNewClaim c n poolName, storeAddClaim sNow (cpNewClaim c n poolName)) := by
  unfold ensureClaimWith createClaim
  simp only [hget, hfp]
  have hk : storeGetClaimOpt sNow
      (cpNewClaim c n poolName).ns (cpNewClaim c n poolName).name = none := hget2
  simp [hk]

/-- C1: counterexample.  When the initial Get sees no claim but a
concurrent creator has added it by the time Create runs, the controller
path's ensureClaim returns the wrapped already-exists error instead of
re-fetching the existing claim: the claimed re-fetch-and-return-without-
error behavior does not hold for ensureClaim. -/
theorem C1_counterexample :
    ensureClaimWith c1sGet c1sNow c1cluster "vip-cp-c1" =
      Except.error ("create IPAddressClaim: " ++ claimAlreadyExistsMsg "vip-cp-c1") := rfl

/-- C1 (amended): sequential repeated ensureClaim calls converge to
exactly one claim under the deterministic name — a successful call
leaves exactly one claim with that name and a second call returns the
very same claim and store; the already-exists re-fetch belongs to the
hook path's preallocateIP, which on a create race re-fetches through the
polling wait and returns the bound address without error, while the
controller's ensureClaim surfaces the create error to its retrying
caller. -/
theorem C1_amended (s : Store) (c : Cluster) (n : String) (cl : Claim) (s' : Store)
    (hu : claimCount s c.ns n ≤ 1)
    (h1 : ensureClaimWith s s c n = Except.ok (cl, s')) :
    claimCount s' c.ns n = 1
    ∧ ensureClaimWith s' s' c n = Except.ok (cl, s')
    ∧ preallocateIP c1sGet c1sBound c1cluster "vip-cp-c1" "pool-cp" = Except.ok "10.0.0.15" := by
  have hmain : claimCount s' c.ns n = 1 ∧ ensureClaimWith s' s' c n = Except.ok (cl, s') := by
    cases hget : storeGetClaimOpt s c.ns n with
    | some cl0 =>
      obtain ⟨hns, hname⟩ := claim_key_of_get hget
      by_cases hemp : cl0.ownerReferences.isEmpty = true
      · have hev : ensureClaimWith s s c n =
            Except.ok ({ cl0 with ownerReferences := [clusterOwnerRef c] },
              storeUpdateClaim s { cl0 with ownerReferences := [clusterOwnerRef c] }) := by
          unfold ensureClaimWith
          simp [hget, hemp]
        rw [hev] at h1
        injection h1 with h2
        injection h2 with hcl hs
        subst hs
        subst hcl
        constructor
        · have hcu : claimCount
              (storeUpdateClaim s { cl0 with ownerReferences := [clusterOwnerRef c] })
              cl0.ns cl0.name = claimCount s cl0.ns cl0.name :=
            claimCount_update s { cl0 with ownerReferences := [clusterOwnerRef c] }
          rw [← hns, ← hname, hcu, hns, hname]
          exact claimCount_one_of_get s c.ns n cl0 hget hu
        · have hex : (storeGetClaimOpt s cl0.ns cl0.name).isSome = true := by
            rw [hns, hname, hget]; rfl
          have hupd : storeGetClaimOpt
              (storeUpdateClaim s { cl0 with ownerReferences := [clusterOwnerRef c] })
              c.ns n = some { cl0 with ownerReferences := [clusterOwnerRef c] } := by
            have h0 : storeGetClaimOpt
                (storeUpdateClaim s { cl0 with ownerReferences := [clusterOwnerRef c] })
                cl0.ns cl0.name = some { cl0 with ownerReferences := [clusterOwnerRef c] } :=
              storeUpdateClaim_get s { cl0 with ownerReferences := [clusterOwnerRef c] } hex
            rw [← hns, ← hname]
            exact h0
          unfold ensureClaimWith
          simp [hupd]
      · have hev : ensureClaimWith s s c n = Except.ok (cl0, s) := by
          unfold ensureClaimWith
          simp [hget, hemp]
        rw [hev] at h1
        injection h1 with h2
        injection h2 with hcl hs
        subst hs
        subst hcl
        refine ⟨claimCount_one_of_get s c.ns n cl0 hget hu, ?_⟩
        unfold ensureClaimWith
        simp [hget, hemp]
    | none =>
      cases hfp : findPool s.pools (clusterClassOf c) controlPlaneRole with
      | none =>
        have hev : ensureClaimWith s s c n = Except.error (cpNoPoolMsg (clusterClassOf c)) := by
          unfold ensureClaimWith
          simp [hget, hfp]
        rw [hev] at h1
        exact absurd h1 (by simp)
      | some poolName =>
        rw [ensureClaimWith_create s s c n poolName hget hget hfp] at h1
        injection h1 with h2
        injection h2 with hcl hs
        subst hs
        subst hcl
        have hkeyget : storeGetClaimOpt s
            (cpNewClaim c n poolName).ns (cpNewClaim c n poolName).name = none := hget
        refine ⟨claimCount_add_one s (cpNewClaim c n poolName) hkeyget, ?_⟩
        have hadd : storeGetClaimOpt (storeAddClaim s (cpNewClaim c n poolName))
            c.ns n = some (cpNewClaim c n poolName) :=
          storeAddClaim_get s (cpNewClaim c n poolName) hkeyget
        unfold ensureClaimWith
        simp only [hadd]
        simp [cpNewClaim]
  exact ⟨hmain.1, hmain.2, rfl⟩

/-- C1 witness: with an owned claim already in the store, ensureClaim
returns it and changes nothing, the claim is unique, and the hook path's
create race resolves to the bound address. -/
theorem C1_witness :
    claimCount c1sOwned c1cluster.ns "vip-cp-c1" = 1
    ∧ ensureClaimWith c1sOwned c1sOwned c1cluster "vip-cp-c1" =
        Except.ok (c1ownedClaim, c1sOwned)
    ∧ preallocateIP c1sGet c1sBound c1cluster "vip-cp-c1" "pool-cp" = Except.ok "10.0.0.15" :=
  C1_amended c1sOwned c1cluster "vip-cp-c1" c1ownedClaim c1sOwned (by decide) rfl

lemma cluster_key_of_get {s : Store} {ns n : String} {c : Cluster}
    (h : storeGetClusterOpt s ns n = some c) : c.ns = ns ∧ c.name = n := by
  unfold storeGetClusterOpt at h
  have hp := List.find?_some h
  simp only [] at hp
  rw [Bool.and_eq_true] at hp
  exact ⟨eq_of_beq hp.1, eq_of_beq hp.2⟩

lemma storeUpdateCluster_get (s : Store) (c : Cluster)
    (hex : (storeGetClusterOpt s c.ns c.name).isSome = true) :
    storeGetClusterOpt (storeUpdateCluster s c) c.ns c.name = some c := by
  unfold storeGetClusterOpt at hex
  unfold storeGetClusterOpt storeUpdateCluster
  rw [find?_map_pres]
  · obtain ⟨a, ha⟩ := Option.isSome_iff_exists.mp hex
    rw [ha]
    have hpa := List.find?_some ha
    simp only [] at hpa
    rw [Bool.and_eq_true] at hpa
    simp [hpa]
    intro hcon
    exact absurd (eq_of_beq hpa.2) (hcon (eq_of_beq hpa.1))
  · intro a
    by_cases hpa : (a.ns == c.ns && a.name == c.name) = true
    · simp [hpa]
    · simp [hpa]

lemma createClaim_clusters {s : Store} {c : Claim} {s1 : Store}
    (h : createClaim s c = Except.ok s1) : s1.clusters = s.clusters := by
  unfold createClaim at h
  split at h
  · exact Except.noConfusion h
  · injection h with hs
    subst hs
    rfl

lemma ensureClaimWith_clusters {sg sn : Store} {c : Cluster} {n : String}
    {cl : Claim} {s1 : Store}
    (h : ensureClaimWith sg sn c n = Except.ok (cl, s1)) :
    s1.clusters = sn.clusters := by
  unfold ensureClaimWith at h
  split at h
  · split at h
    · injection h with h2
      injection h2 with hcl hs
      subst hs
      rfl
    · injection h with h2
      injection h2 with hcl hs
      subst hs
      rfl
  · split at h
    · exact Except.noConfusion h
    · simp only [] at h
      split at h
      · exact Except.noConfusion h
      next s2 heq =>
        injection h with h2
        injection h2 with hcl hs
        subst hs
        exact createClaim_clusters heq

lemma ensureClaimWithRoleW_clusters {sg sn : Store} {c : Cluster} {n role : String}
    {cl : Claim} {s1 : Store}
    (h : ensureClaimWithRoleW sg sn c n role = Except.ok (cl, s1)) :
    s1.clusters = sn.clusters := by
  unfold ensureClaimWithRoleW at h
  split at h
  · split at h
    · injection h with h2
      injection h2 with hcl hs
      subst hs
      rfl
    · injection h with h2
      injection h2 with hcl hs
      subst hs
      rfl
  · split at h
    · exact Except.noConfusion h
    · simp only [] at h
      split at h
      · exact Except.noConfusion h
      next s2 heq =>
        injection h with h2
        injection h2 with hcl hs
        subst hs
        exact createClaim_clusters heq

lemma ensureIngressVIPAllocate_ok {s : Store} {c c1 : Cluster} {s1 : Store} {ns n : String}
    (hc : storeGetClusterOpt s ns n = some c)
    (h : ensureIngressVIPAllocate s c = Except.ok (c1, s1)) :
    c1.endpoint = c.endpoint ∧ storeGetClusterOpt s1 ns n = some c1 := by
  obtain ⟨hns, hname⟩ := cluster_key_of_get hc
  unfold ensureIngressVIPAllocate at h
  split at h
  · exact Except.noConfusion h
  next claim s1c heq =>
    split at h
    · exact Except.noConfusion h
    · injection h with h2
      injection h2 with hc1 hs
      subst hs
      subst hc1
      have hcls := ensureClaimWithRoleW_clusters heq
      refine ⟨rfl, ?_⟩
      unfold storeGetClusterOpt at hc ⊢
      rw [hcls]
      exact hc
    next ip heq2 =>
      simp only [] at h
      injection h with h2
      injection h2 with hc1 hs
      subst hs
      subst hc1
      have hcls := ensureClaimWithRoleW_clusters heq
      have hex : (storeGetClusterOpt s1c
          ({ c with
              annotations := setMap c.annotations ingressVipKey ip
              labels := setMap c.labels ingressVipKey ip } : Cluster).ns
          ({ c with
              annotations := setMap c.annotations ingressVipKey ip
              labels := setMap c.labels ingressVipKey ip } : Cluster).name).isSome = true := by
        show (storeGetClusterOpt s1c c.ns c.name).isSome = true
        have hcn : storeGetClusterOpt s c.ns c.name = some c := by
          rw [hns, hname]
          exact hc
        unfold storeGetClusterOpt at hcn ⊢
        rw [hcls, hcn]
        rfl
      have hupd := storeUpdateCluster_get s1c
        { c with
            annotations := setMap c.annotations ingressVipKey ip
            labels := setMap c.labels ingressVipKey ip } hex
      refine ⟨rfl, ?_⟩
      have h2 : storeGetClusterOpt (storeUpdateCluster s1c
          { c with
              annotations := setMap c.annotations ingressVipKey ip
              labels := setMap c.labels ingressVipKey ip }) c.ns c.name =
          some { c with
              annotations := setMap c.annotations ingressVipKey ip
              labels := setMap c.labels ingressVipKey ip } := hupd
      rw [← hns, ← hname]
      exact h2

lemma ensureIngressVIP_ok {s : Store} {c c1 : Cluster} {s1 : Store} {ns n : String}
    (hc : storeGetClusterOpt s ns n = some c)
    (h : ensureIngressVIP s c = Except.ok (c1, s1)) :
    c1.endpoint = c.endpoint ∧ storeGetClusterOpt s1 ns n = some c1 := by
  unfold ensureIngressVIP at h
  split at h
  · split at h
    · injection h with h2
      injection h2 with hc1 hs
      subst hs
      subst hc1
      exact ⟨rfl, hc⟩
    · exact ensureIngressVIPAllocate_ok hc h
  · exact ensureIngressVIPAllocate_ok hc h

/-- C2: counterexample.  With endpoint.host already set, a matching pool
and no existing claim, Reconcile leaves the host untouched but its
adoption call creates a control-plane claim: the store before holds no
claim under the deterministic name and the store after does, refuting
"no claim is created for that role". -/
theorem C2_counterexample :
    storeGetClaimOpt c2s "default" "vip-cp-c1" = none
    ∧ Reconcile 6443 c2s "default" "c1" = Except.ok ({ requeueAfter := 0 }, c2sAfter)
    ∧ (storeGetClaimOpt c2sAfter "default" "vip-cp-c1").isSome = true
    ∧ storeGetClusterOpt c2sAfter "default" "c1" = some c2cluster := by
  exact ⟨rfl, rfl, rfl, rfl⟩

/-- C2 (amended): when endpoint.host is non-empty before a background
reconcile, any successful reconcile leaves the target's endpoint (host
and port) untouched; however, the reconcile still runs the claim
adoption call, which creates a control-plane claim when none exists and
a pool matches. -/
theorem C2_amended (dp : Int) (s : Store) (ns n : String) (c : Cluster)
    (r : RcResult) (s' : Store)
    (hc : storeGetClusterOpt s ns n = some c)
    (hh : c.endpoint.host ≠ "")
    (hr : Reconcile dp s ns n = Except.ok (r, s')) :
    ∃ c', storeGetClusterOpt s' ns n = some c' ∧ c'.endpoint = c.endpoint := by
  unfold Reconcile at hr
  simp only [hc] at hr
  split at hr
  · injection hr with h2
    injection h2 with hrr hs
    subst hs
    exact ⟨c, hc, rfl⟩
  next topo htopo =>
    split at hr
    · injection hr with h2
      injection h2 with hrr hs
      subst hs
      exact ⟨c, hc, rfl⟩
    · split at hr
      next e heq => exact Except.noConfusion hr
      next c1 s1 heq =>
        have hpast : c1.endpoint = c.endpoint ∧ storeGetClusterOpt s1 ns n = some c1 := by
          split at heq
          · exact ensureIngressVIP_ok hc heq
          · injection heq with h2
            injection h2 with hc1 hs
            subst hs
            subst hc1
            exact ⟨rfl, hc⟩
        obtain ⟨hend, hget1⟩ := hpast
        have hb : (c1.endpoint.host != "") = true := by
          rw [hend]
          exact bne_iff_ne.mpr hh
        rw [hb, if_pos rfl] at hr
        injection hr with h2
        injection h2 with hrr hs2
        subst hs2
        cases hec : ensureClaimWith s1 s1 c1 ("vip-cp-" ++ c1.name) with
        | ok pr =>
          obtain ⟨cl2, sx⟩ := pr
          simp only [hec]
          have hcls := ensureClaimWith_clusters hec
          refine ⟨c1, ?_, hend⟩
          unfold storeGetClusterOpt at hget1 ⊢
          rw [hcls]
          exact hget1
        | error e =>
          simp only [hec]
          exact ⟨c1, hget1, hend⟩

/-- C2 witness: the amended statement at the manually configured
cluster. -/
theorem C2_witness :
    ∃ c', storeGetClusterOpt c2sAfter "default" "c1" = some c'
      ∧ c'.endpoint = c2cluster.endpoint :=
  C2_amended 6443 c2s "default" "c1" c2cluster { requeueAfter := 0 } c2sAfter rfl
    (by decide) rfl
